import Mathlib

/-!
Verification of the SSTable footer layer of wickdb (`src/sstable/mod.rs`).

Bytes are modelled as natural numbers; every byte produced by the encoders
is `< 256` by construction.  Rust `Vec<u8>` becomes `List Nat`, `Result`
becomes `Except` and a Rust panic (out-of-bounds slice index) becomes
`Option.none` in the one function that can panic (`Footer.decode_from`).
-/

deriving instance DecidableEq for Except

namespace Wickdb

/-- Error statuses of `util/status.rs` (only the ones the footer code uses
matter here, the others are kept for fidelity of the enumeration). -/
inductive Status where
  | Ok
  | NotFound
  | Corruption
  | NotSupported
  | InvalidArgument
  | IOError
deriving DecidableEq

/-- `WickErr` from `util/status.rs`: a status plus an optional message
(`WickErr::new(status, Some(msg))`). -/
structure WickErr where
  status : Status
  msg : Option String
deriving DecidableEq

/-- Modelled from the spec: `MAX_VARINT_LEN_U64` of `util/varint.rs` (not under
`src/`).  A u64 LEB128 varint is at most 10 bytes (⌈64/7⌉). -/
def MAX_VARINT_LEN_U64 : Nat := 10

/-- Modelled from the spec: `VarintU64::put_varint` of `util/varint.rs` (not
under `src/`): LEB128-style, 7 bits per byte, low bits first, continuation
flag in the high bit.  Structural recursion on a fuel argument (the number of
base-128 digits of `n` never exceeds `n`, so `fuel = n` suffices). -/
def putVarintAux : Nat → Nat → List Nat
  | 0, n => [n % 128]
  | fuel + 1, n => if n < 128 then [n] else (n % 128 + 128) :: putVarintAux fuel (n / 128)

/-- Modelled from the spec: appends the LEB128 encoding of `n`. -/
def putVarint (n : Nat) : List Nat := putVarintAux n n

/-- Modelled from the spec: the read loop of `VarintU64::read` of
`util/varint.rs` (not under `src/`): consume continuation bytes accumulating
7 bits each, fail (`none`) when the input ends mid-varint or when the shift
passes 63 (the value would no longer fit in a u64).  `shift` is the current
bit position, `acc` the bits read so far, `i` the bytes consumed so far. -/
def varintReadAux : List Nat → Nat → Nat → Nat → Option (Nat × Nat)
  | [], _, _, _ => none
  | b :: rest, shift, acc, i =>
    if shift ≤ 63 then
      if b % 256 < 128 then some (acc + b % 256 * 2 ^ shift, i + 1)
      else varintReadAux rest (shift + 7) (acc + b % 256 % 128 * 2 ^ shift) (i + 1)
    else none

/-- Modelled from the spec: `VarintU64::read`: decodes a u64 varint from the
front of `src`, returning the value and the number of bytes consumed. -/
def varintRead (src : List Nat) : Option (Nat × Nat) := varintReadAux src 0 0 0

/-- Modelled from the spec: `put_fixed_64` of `util/coding.rs` (not under
`src/`): appends `n` as 8 little-endian bytes. -/
def put_fixed_64 (dst : List Nat) (n : Nat) : List Nat :=
  dst ++ [n % 256, n / 2 ^ 8 % 256, n / 2 ^ 16 % 256, n / 2 ^ 24 % 256,
          n / 2 ^ 32 % 256, n / 2 ^ 40 % 256, n / 2 ^ 48 % 256, n / 2 ^ 56 % 256]

/-- Modelled from the spec: `decode_fixed_64` of `util/coding.rs` (not under
`src/`): reads the first 8 bytes of `src` as a little-endian u64. -/
def decode_fixed_64 (src : List Nat) : Nat :=
  src.getD 0 0 + src.getD 1 0 * 2 ^ 8 + src.getD 2 0 * 2 ^ 16 + src.getD 3 0 * 2 ^ 24 +
  src.getD 4 0 * 2 ^ 32 + src.getD 5 0 * 2 ^ 40 + src.getD 6 0 * 2 ^ 48 + src.getD 7 0 * 2 ^ 56

/-- Rust `Vec::resize(n, x)`: truncate to `n` elements or pad with `x` up to
`n` elements. -/
def resize (l : List Nat) (n : Nat) (x : Nat) : List Nat :=
  if l.length < n then l ++ List.replicate (n - l.length) x else l.take n

/-- `TABLE_MAGIC_NUMBER` of `sstable/mod.rs`. -/
def TABLE_MAGIC_NUMBER : Nat := 0xdb4775248b80fb57

/-- `MAX_BLOCK_HANDLE_ENCODE_LENGTH` of `sstable/mod.rs`. -/
def MAX_BLOCK_HANDLE_ENCODE_LENGTH : Nat := 2 * MAX_VARINT_LEN_U64

/-- `FOOTER_ENCODED_LENGTH` of `sstable/mod.rs`. -/
def FOOTER_ENCODED_LENGTH : Nat := 2 * MAX_BLOCK_HANDLE_ENCODE_LENGTH + 8

/-- `BlockHandle` of `sstable/mod.rs`: a varint-encoded `(offset, size)`
pointer to a block of the table file. -/
structure BlockHandle where
  offset : Nat
  size : Nat
deriving DecidableEq

/-- `BlockHandle::new`. -/
def BlockHandle.new (offset size : Nat) : BlockHandle := ⟨offset, size⟩

/-- `BlockHandle::encoded_to`: appends the varint encodings of offset then
size to `dst`. -/
def BlockHandle.encoded_to (h : BlockHandle) (dst : List Nat) : List Nat :=
  dst ++ putVarint h.offset ++ putVarint h.size

/-- `BlockHandle::encoded`. -/
def BlockHandle.encoded (h : BlockHandle) : List Nat := h.encoded_to []

/-- `BlockHandle::decode_from`: reads two varints; any varint failure is
`Corruption("bad block handle")`. -/
def BlockHandle.decode_from (src : List Nat) : Except WickErr (BlockHandle × Nat) :=
  match varintRead src with
  | some (offset, n) =>
    match varintRead (src.drop n) with
    | some (size, m) => .ok (BlockHandle.new offset size, m + n)
    | none => .error ⟨.Corruption, some "bad block handle"⟩
  | none => .error ⟨.Corruption, some "bad block handle"⟩

/-- `Footer` of `sstable/mod.rs`. -/
structure Footer where
  meta_index_handle : BlockHandle
  index_handle : BlockHandle
deriving DecidableEq

/-- `Footer::new`. -/
def Footer.new (meta_index_handle index_handle : BlockHandle) : Footer :=
  ⟨meta_index_handle, index_handle⟩

/-- `Footer::encoded`: the two handles varint-encoded, the vector resized
(zero-padded) to `2 * MAX_BLOCK_HANDLE_ENCODE_LENGTH`, then the magic number
appended as a fixed little-endian u64.  The trailing `assert_eq!` of the
source always holds: `resize` yields exactly 40 bytes and `put_fixed_64`
appends 8, giving `FOOTER_ENCODED_LENGTH`. -/
def Footer.encoded (f : Footer) : List Nat :=
  put_fixed_64
    (resize (f.index_handle.encoded_to (f.meta_index_handle.encoded_to []))
      (2 * MAX_BLOCK_HANDLE_ENCODE_LENGTH) 0)
    TABLE_MAGIC_NUMBER

/-- `Footer::decode_from`: checks the magic number stored at
`src[FOOTER_ENCODED_LENGTH - 8 ..]`, then decodes the two handles.  The Rust
slice `src[40..]` panics when `src` is shorter than 40 bytes, and the
spec-modelled `decode_fixed_64` reads bytes 40..48, so the function is
modelled as `none` (a panic) when `src` has fewer than
`FOOTER_ENCODED_LENGTH` bytes. -/
def Footer.decode_from (src : List Nat) : Option (Except WickErr (Footer × Nat)) :=
  if FOOTER_ENCODED_LENGTH ≤ src.length then
    if decode_fixed_64 (src.drop (FOOTER_ENCODED_LENGTH - 8)) ≠ TABLE_MAGIC_NUMBER then
      some (.error ⟨.Corruption, some "not an sstable (bad magic number)"⟩)
    else
      match BlockHandle.decode_from src with
      | .error e => some (.error e)
      | .ok (meta_index_handle, n) =>
        match BlockHandle.decode_from (src.drop n) with
        | .error e => some (.error e)
        | .ok (index_handle, m) => some (.ok (Footer.new meta_index_handle index_handle, m + n))
  else none

/-! ### Varint lemmas -/

theorem putVarintAux_ne_nil (fuel n : Nat) : putVarintAux fuel n ≠ [] := by
  cases fuel with
  | zero => simp [putVarintAux]
  | succ fuel => simp only [putVarintAux]; split <;> simp

theorem putVarintAux_length_pos (fuel n : Nat) : 1 ≤ (putVarintAux fuel n).length :=
  List.length_pos.mpr (putVarintAux_ne_nil fuel n)

theorem putVarintAux_length_le :
    ∀ (fuel n k : Nat), n ≤ fuel → n < 128 ^ k → 1 ≤ k → (putVarintAux fuel n).length ≤ k := by
  intro fuel
  induction fuel with
  | zero => intro n k _ _ hk; simp [putVarintAux]; omega
  | succ fuel ih =>
    intro n k hn hnk hk
    by_cases h : n < 128
    · simp [putVarintAux, h]; omega
    · simp only [putVarintAux, if_neg h, List.length_cons]
      match k, hk with
      | 1, _ => omega
      | k + 2, _ =>
        have hdiv : n / 128 ≤ fuel := by
          have := Nat.div_lt_self (by omega : 0 < n) (by omega : 1 < 128)
          omega
        have hlt : n / 128 < 128 ^ (k + 1) := by
          rw [Nat.div_lt_iff_lt_mul (by omega : 0 < 128)]
          calc n < 128 ^ (k + 2) := hnk
            _ = 128 ^ (k + 1) * 128 := by rw [pow_succ]
        have := ih (n / 128) (k + 1) hdiv hlt (by omega)
        omega

theorem putVarint_length_le_ten (n : Nat) (h : n < 2 ^ 64) : (putVarint n).length ≤ 10 := by
  refine putVarintAux_length_le n n 10 le_rfl ?_ (by norm_num)
  calc n < 2 ^ 64 := h
    _ ≤ 128 ^ 10 := by norm_num

theorem varintReadAux_putVarintAux :
    ∀ (fuel n : Nat), n ≤ fuel →
      ∀ (rest : List Nat) (shift acc i : Nat),
        shift + 7 * ((putVarintAux fuel n).length - 1) ≤ 63 →
        varintReadAux (putVarintAux fuel n ++ rest) shift acc i =
          some (acc + n * 2 ^ shift, i + (putVarintAux fuel n).length) := by
  intro fuel
  induction fuel with
  | zero =>
    intro n hn rest shift acc i hshift
    have hn0 : n = 0 := Nat.le_zero.mp hn
    subst hn0
    simp [putVarintAux, varintReadAux] at hshift ⊢
    omega
  | succ fuel ih =>
    intro n hn rest shift acc i hshift
    by_cases h : n < 128
    · simp only [putVarintAux, if_pos h, List.length_cons, List.length_nil] at hshift ⊢
      have hb : n % 256 = n := Nat.mod_eq_of_lt (by omega)
      simp [varintReadAux, hb, h, if_pos (by omega : shift ≤ 63)]
    · simp only [putVarintAux, if_neg h, List.length_cons] at hshift ⊢
      set L := (putVarintAux fuel (n / 128)).length with hL
      have hL1 : 1 ≤ L := putVarintAux_length_pos fuel (n / 128)
      have hb256 : (n % 128 + 128) % 256 = n % 128 + 128 :=
        Nat.mod_eq_of_lt (by have := Nat.mod_lt n (by omega : 0 < 128); omega)
      have hb128 : (n % 128 + 128) % 128 = n % 128 := by omega
      rw [List.cons_append]
      rw [varintReadAux]
      rw [if_pos (by omega : shift ≤ 63)]
      rw [hb256, if_neg (by omega : ¬ n % 128 + 128 < 128), hb128]
      have hdiv : n / 128 ≤ fuel := by
        have := Nat.div_lt_self (by omega : 0 < n) (by omega : 1 < 128)
        omega
      rw [ih (n / 128) hdiv rest (shift + 7) (acc + n % 128 * 2 ^ shift) (i + 1)
        (by omega)]
      have hX : (2 : Nat) ^ (shift + 7) = 2 ^ shift * 128 := by rw [pow_add]; norm_num
      have hval : acc + n % 128 * 2 ^ shift + n / 128 * 2 ^ (shift + 7) =
          acc + n * 2 ^ shift := by
        rw [hX]
        calc acc + n % 128 * 2 ^ shift + n / 128 * (2 ^ shift * 128)
            = acc + (n % 128 + n / 128 * 128) * 2 ^ shift := by ring
          _ = acc + n * 2 ^ shift := by rw [Nat.mod_add_div']
      rw [hval]
      simp only [Option.some.injEq, Prod.mk.injEq]
      exact ⟨trivial, by omega⟩

theorem varintRead_putVarint (n : Nat) (rest : List Nat) (h : (putVarint n).length ≤ 10) :
    varintRead (putVarint n ++ rest) = some (n, (putVarint n).length) := by
  have hpos : 1 ≤ (putVarint n).length := putVarintAux_length_pos n n
  have := varintReadAux_putVarintAux n n le_rfl rest 0 0 0 (by
    simp only [putVarint] at h hpos ⊢
    omega)
  simpa [varintRead, putVarint] using this

theorem varintReadAux_consumed :
    ∀ (src : List Nat) (shift acc i v m : Nat),
      varintReadAux src shift acc i = some (v, m) → 7 * m + shift ≤ 7 * i + 70 := by
  intro src
  induction src with
  | nil => intro shift acc i v m h; simp [varintReadAux] at h
  | cons b rest ih =>
    intro shift acc i v m h
    rw [varintReadAux] at h
    by_cases hs : shift ≤ 63
    · rw [if_pos hs] at h
      by_cases hb : b % 256 < 128
      · rw [if_pos hb] at h
        simp only [Option.some.injEq, Prod.mk.injEq] at h
        omega
      · rw [if_neg hb] at h
        have := ih (shift + 7) (acc + b % 256 % 128 * 2 ^ shift) (i + 1) v m h
        omega
    · rw [if_neg hs] at h
      exact absurd h (by simp)

theorem varintRead_consumed (src : List Nat) (v m : Nat)
    (h : varintRead src = some (v, m)) : m ≤ 10 := by
  have := varintReadAux_consumed src 0 0 0 v m h
  omega

/-! ### BlockHandle and Footer layout lemmas -/

theorem drop_append_two (a b rest : List Nat) :
    (a ++ (b ++ rest)).drop (b.length + a.length) = rest := by
  rw [← List.append_assoc]
  exact List.drop_left' (by simp [Nat.add_comm])

theorem blockHandle_decode_append (o s : Nat) (rest : List Nat)
    (ho : (putVarint o).length ≤ 10) (hs : (putVarint s).length ≤ 10) :
    BlockHandle.decode_from (putVarint o ++ (putVarint s ++ rest)) =
      .ok (BlockHandle.new o s, (putVarint s).length + (putVarint o).length) := by
  rw [BlockHandle.decode_from]
  rw [show putVarint o ++ (putVarint s ++ rest) = putVarint o ++ (putVarint s ++ rest) from rfl]
  rw [varintRead_putVarint o (putVarint s ++ rest) ho]
  simp only [List.drop_left]
  rw [varintRead_putVarint s rest hs]

/-- The four varint byte strings of a footer's two handles, in encoding
order. -/
def handleBytes (f : Footer) : List Nat :=
  putVarint f.meta_index_handle.offset ++ (putVarint f.meta_index_handle.size ++
    (putVarint f.index_handle.offset ++ putVarint f.index_handle.size))

theorem encoded_to_handleBytes (f : Footer) :
    f.index_handle.encoded_to (f.meta_index_handle.encoded_to []) = handleBytes f := by
  simp [BlockHandle.encoded_to, handleBytes]

theorem resize_length (l : List Nat) (n x : Nat) : (resize l n x).length = n := by
  rw [resize]
  split
  · simp; omega
  · simp; omega

theorem resize_of_le (l : List Nat) (n x : Nat) (h : l.length ≤ n) :
    resize l n x = l ++ List.replicate (n - l.length) x := by
  rw [resize]
  split
  · rfl
  · have hn : l.length = n := by omega
    simp [hn]

theorem put_fixed_64_magic (v : List Nat) :
    put_fixed_64 v TABLE_MAGIC_NUMBER = v ++ [87, 251, 128, 139, 36, 117, 71, 219] := by
  norm_num [put_fixed_64, TABLE_MAGIC_NUMBER]

theorem decode_fixed_64_magic :
    decode_fixed_64 [87, 251, 128, 139, 36, 117, 71, 219] = TABLE_MAGIC_NUMBER := by decide

theorem footer_encoded_eq (f : Footer) (h : (handleBytes f).length ≤ 40) :
    f.encoded = handleBytes f ++ (List.replicate (40 - (handleBytes f).length) 0 ++
      [87, 251, 128, 139, 36, 117, 71, 219]) := by
  rw [Footer.encoded, encoded_to_handleBytes, put_fixed_64_magic]
  rw [show 2 * MAX_BLOCK_HANDLE_ENCODE_LENGTH = 40 by norm_num [MAX_BLOCK_HANDLE_ENCODE_LENGTH, MAX_VARINT_LEN_U64]]
  rw [resize_of_le _ _ _ h, List.append_assoc]

theorem footer_encoded_length (f : Footer) : f.encoded.length = 48 := by
  rw [Footer.encoded, put_fixed_64_magic, List.length_append, resize_length]
  norm_num [MAX_BLOCK_HANDLE_ENCODE_LENGTH, MAX_VARINT_LEN_U64]

theorem footer_encoded_drop40 (f : Footer) :
    f.encoded.drop 40 = [87, 251, 128, 139, 36, 117, 71, 219] := by
  rw [Footer.encoded, put_fixed_64_magic]
  refine List.drop_left' ?_
  rw [resize_length]
  norm_num [MAX_BLOCK_HANDLE_ENCODE_LENGTH, MAX_VARINT_LEN_U64]

theorem handleBytes_length_le (f : Footer)
    (h1 : f.meta_index_handle.offset < 2 ^ 64) (h2 : f.meta_index_handle.size < 2 ^ 64)
    (h3 : f.index_handle.offset < 2 ^ 64) (h4 : f.index_handle.size < 2 ^ 64) :
    (handleBytes f).length ≤ 40 := by
  have := putVarint_length_le_ten _ h1
  have := putVarint_length_le_ten _ h2
  have := putVarint_length_le_ten _ h3
  have := putVarint_length_le_ten _ h4
  simp only [handleBytes, List.length_append]
  omega

/-! ### Footer decoding lemmas -/

theorem footer_decode_bad_magic (src : List Nat) (hlen : FOOTER_ENCODED_LENGTH ≤ src.length)
    (hne : decode_fixed_64 (src.drop (FOOTER_ENCODED_LENGTH - 8)) ≠ TABLE_MAGIC_NUMBER) :
    Footer.decode_from src =
      some (.error ⟨.Corruption, some "not an sstable (bad magic number)"⟩) := by
  rw [Footer.decode_from, if_pos hlen, if_pos hne]

theorem footer_decode_encode (f : Footer)
    (h1 : f.meta_index_handle.offset < 2 ^ 64) (h2 : f.meta_index_handle.size < 2 ^ 64)
    (h3 : f.index_handle.offset < 2 ^ 64) (h4 : f.index_handle.size < 2 ^ 64) :
    Footer.decode_from f.encoded = some (.ok (f, (handleBytes f).length)) := by
  have hmo := putVarint_length_le_ten _ h1
  have hms := putVarint_length_le_ten _ h2
  have hio := putVarint_length_le_ten _ h3
  have his := putVarint_length_le_ten _ h4
  have hhb : (handleBytes f).length ≤ 40 := handleBytes_length_le f h1 h2 h3 h4
  have h40 : FOOTER_ENCODED_LENGTH - 8 = 40 := by
    norm_num [FOOTER_ENCODED_LENGTH, MAX_BLOCK_HANDLE_ENCODE_LENGTH, MAX_VARINT_LEN_U64]
  rw [Footer.decode_from, if_pos (by
    rw [footer_encoded_length f]
    norm_num [FOOTER_ENCODED_LENGTH, MAX_BLOCK_HANDLE_ENCODE_LENGTH, MAX_VARINT_LEN_U64])]
  rw [if_neg (by rw [h40, footer_encoded_drop40 f, decode_fixed_64_magic]; simp)]
  have henc : f.encoded =
      putVarint f.meta_index_handle.offset ++ (putVarint f.meta_index_handle.size ++
        (putVarint f.index_handle.offset ++ (putVarint f.index_handle.size ++
          (List.replicate (40 - (handleBytes f).length) 0 ++
            [87, 251, 128, 139, 36, 117, 71, 219])))) := by
    rw [footer_encoded_eq f hhb, handleBytes]
    simp [List.append_assoc]
  rw [henc, blockHandle_decode_append _ _ _ hmo hms]
  simp only []
  rw [show putVarint f.index_handle.offset ++ (putVarint f.index_handle.size ++
      (List.replicate (40 - (handleBytes f).length) 0 ++
        [87, 251, 128, 139, 36, 117, 71, 219])) =
      (putVarint f.index_handle.offset ++ (putVarint f.index_handle.size ++
        (List.replicate (40 - (handleBytes f).length) 0 ++
          [87, 251, 128, 139, 36, 117, 71, 219]))) from rfl]
  rw [drop_append_two, blockHandle_decode_append _ _ _ hio his]
  simp only [Option.some.injEq, Except.ok.injEq, Prod.mk.injEq]
  refine ⟨rfl, ?_⟩
  simp only [handleBytes, List.length_append]
  omega

theorem footer_decode_ok_magic (src : List Nat) (r : Footer × Nat)
    (h : Footer.decode_from src = some (.ok r)) :
    decode_fixed_64 (src.drop (FOOTER_ENCODED_LENGTH - 8)) = TABLE_MAGIC_NUMBER := by
  rw [Footer.decode_from] at h
  by_cases hl : FOOTER_ENCODED_LENGTH ≤ src.length
  · rw [if_pos hl] at h
    by_cases hm : decode_fixed_64 (src.drop (FOOTER_ENCODED_LENGTH - 8)) ≠ TABLE_MAGIC_NUMBER
    · rw [if_pos hm] at h
      exact absurd h (by simp)
    · push_neg at hm
      exact hm
  · rw [if_neg hl] at h
    exact absurd h (by simp)

theorem footer_decode_bad_handle_magic (src : List Nat)
    (h : Footer.decode_from src = some (.error ⟨.Corruption, some "bad block handle"⟩)) :
    decode_fixed_64 (src.drop (FOOTER_ENCODED_LENGTH - 8)) = TABLE_MAGIC_NUMBER := by
  rw [Footer.decode_from] at h
  by_cases hl : FOOTER_ENCODED_LENGTH ≤ src.length
  · rw [if_pos hl] at h
    by_cases hm : decode_fixed_64 (src.drop (FOOTER_ENCODED_LENGTH - 8)) ≠ TABLE_MAGIC_NUMBER
    · rw [if_pos hm] at h
      exact absurd h (by decide)
    · push_neg at hm
      exact hm
  · rw [if_neg hl] at h
    exact absurd h (by simp)

theorem footer_decode_handle_fail (src : List Nat)
    (hl : FOOTER_ENCODED_LENGTH ≤ src.length)
    (hm : decode_fixed_64 (src.drop (FOOTER_ENCODED_LENGTH - 8)) = TABLE_MAGIC_NUMBER)
    (hfail : BlockHandle.decode_from src = .error ⟨.Corruption, some "bad block handle"⟩ ∨
      ∃ h n, BlockHandle.decode_from src = .ok (h, n) ∧
        BlockHandle.decode_from (src.drop n) = .error ⟨.Corruption, some "bad block handle"⟩) :
    Footer.decode_from src = some (.error ⟨.Corruption, some "bad block handle"⟩) := by
  rw [Footer.decode_from, if_pos hl, if_neg (by simp [hm])]
  rcases hfail with hfail | ⟨h, n, hok, hfail⟩
  · rw [hfail]
  · rw [hok]
    simp only []
    rw [hfail]

theorem blockHandle_decode_error_iff (src : List Nat) :
    BlockHandle.decode_from src = .error ⟨.Corruption, some "bad block handle"⟩ ↔
      varintRead src = none ∨
        ∃ v n, varintRead src = some (v, n) ∧ varintRead (src.drop n) = none := by
  rw [BlockHandle.decode_from]
  rcases hv : varintRead src with _ | ⟨v, n⟩
  · simp [hv]
  · rcases hw : varintRead (src.drop n) with _ | ⟨w, m⟩
    · simp only [hv, hw]
      exact iff_of_true trivial (Or.inr ⟨v, n, rfl, hw⟩)
    · simp [hv, hw]

theorem footer_encoded_length_const : FOOTER_ENCODED_LENGTH = 48 := by
  norm_num [FOOTER_ENCODED_LENGTH, MAX_BLOCK_HANDLE_ENCODE_LENGTH, MAX_VARINT_LEN_U64]

theorem footer_magic_offset_const : FOOTER_ENCODED_LENGTH - 8 = 40 := by
  norm_num [FOOTER_ENCODED_LENGTH, MAX_BLOCK_HANDLE_ENCODE_LENGTH, MAX_VARINT_LEN_U64]

theorem set_magic_ne (j c : Nat) (hj : j < 8) (hc : c < 256)
    (hne : c ≠ ([87, 251, 128, 139, 36, 117, 71, 219] : List Nat).getD j 0) :
    decode_fixed_64 (([87, 251, 128, 139, 36, 117, 71, 219] : List Nat).set j c) ≠
      TABLE_MAGIC_NUMBER := by
  interval_cases j <;>
    (simp only [List.set, decode_fixed_64, TABLE_MAGIC_NUMBER,
       List.getD_cons_zero, List.getD_cons_succ] at hne ⊢
     norm_num at hne ⊢
     omega)

theorem blockHandle_decode_consumed (src : List Nat) (h : BlockHandle) (n : Nat)
    (hd : BlockHandle.decode_from src = .ok (h, n)) : n ≤ 20 := by
  rw [BlockHandle.decode_from] at hd
  rcases hv : varintRead src with _ | ⟨v, k⟩
  · rw [hv] at hd
    exact absurd hd (by simp)
  · rw [hv] at hd
    simp only [] at hd
    rcases hw : varintRead (src.drop k) with _ | ⟨w, m⟩
    · rw [hw] at hd
      exact absurd hd (by simp)
    · rw [hw] at hd
      simp only [Except.ok.injEq, Prod.mk.injEq] at hd
      obtain ⟨-, hn⟩ := hd
      have h1 := varintRead_consumed _ _ _ hv
      have h2 := varintRead_consumed _ _ _ hw
      omega

theorem footer_decode_consumed (src : List Nat) (f : Footer) (n : Nat)
    (h : Footer.decode_from src = some (.ok (f, n))) : n ≤ 40 := by
  rw [Footer.decode_from] at h
  by_cases hl : FOOTER_ENCODED_LENGTH ≤ src.length
  · rw [if_pos hl] at h
    by_cases hm : decode_fixed_64 (src.drop (FOOTER_ENCODED_LENGTH - 8)) ≠ TABLE_MAGIC_NUMBER
    · rw [if_pos hm] at h
      exact absurd h (by simp)
    · rw [if_neg hm] at h
      rcases hb : BlockHandle.decode_from src with e | ⟨h1, k⟩
      · rw [hb] at h
        exact absurd h (by simp)
      · rw [hb] at h
        simp only [] at h
        rcases hb2 : BlockHandle.decode_from (src.drop k) with e2 | ⟨h2, m⟩
        · rw [hb2] at h
          exact absurd h (by simp)
        · rw [hb2] at h
          simp only [Option.some.injEq, Except.ok.injEq, Prod.mk.injEq] at h
          obtain ⟨-, hn⟩ := h
          have hc1 := blockHandle_decode_consumed _ _ _ hb
          have hc2 := blockHandle_decode_consumed _ _ _ hb2
          omega
  · rw [if_neg hl] at h
    exact absurd h (by simp)

/-! ### Claim theorems -/

/-- The footer of the spec's concrete scenario:
`{meta=(300,100), index=(401,1000)}`. -/
def sampleFooter : Footer := Footer.new (BlockHandle.new 300 100) (BlockHandle.new 401 1000)

/-- C1: for every footer (u64 offsets and sizes), `Footer::decode_from` of
`Footer::encoded` succeeds, and the decoded footer's meta-index and index
handles equal those of the original footer. -/
theorem C1_footer_roundtrip (f : Footer)
    (h1 : f.meta_index_handle.offset < 2 ^ 64) (h2 : f.meta_index_handle.size < 2 ^ 64)
    (h3 : f.index_handle.offset < 2 ^ 64) (h4 : f.index_handle.size < 2 ^ 64) :
    ∃ n, Footer.decode_from f.encoded =
      some (.ok (Footer.new f.meta_index_handle f.index_handle, n)) :=
  ⟨(handleBytes f).length, footer_decode_encode f h1 h2 h3 h4⟩

/-- C1 witness: the spec's sample footer round-trips. -/
theorem C1_footer_roundtrip_witness :
    ∃ n, Footer.decode_from sampleFooter.encoded =
      some (.ok (Footer.new sampleFooter.meta_index_handle sampleFooter.index_handle, n)) :=
  C1_footer_roundtrip sampleFooter (by decide) (by decide) (by decide) (by decide)

/-- C2: any input of at least 48 bytes whose bytes 40..48 do not decode
(little-endian fixed u64) to the magic number yields
`Corruption("not an sstable (bad magic number)")`; in particular changing
any single byte of the 8 magic bytes of an encoded footer yields this
error. -/
theorem C2_bad_magic_error :
    (∀ src : List Nat, 48 ≤ src.length →
        decode_fixed_64 (src.drop 40) ≠ TABLE_MAGIC_NUMBER →
        Footer.decode_from src =
          some (.error ⟨.Corruption, some "not an sstable (bad magic number)"⟩)) ∧
    (∀ (f : Footer) (j c : Nat), j < 8 → c < 256 →
        c ≠ (f.encoded.drop 40).getD j 0 →
        Footer.decode_from (f.encoded.take 40 ++ (f.encoded.drop 40).set j c) =
          some (.error ⟨.Corruption, some "not an sstable (bad magic number)"⟩)) := by
  constructor
  · intro src hl hm
    exact footer_decode_bad_magic src (by rw [footer_encoded_length_const]; exact hl)
      (by rw [footer_magic_offset_const]; exact hm)
  · intro f j c hj hc hne
    have hlen := footer_encoded_length f
    have hdrop := footer_encoded_drop40 f
    have htake : (f.encoded.take 40).length = 40 := by
      simp [List.length_take, hlen]
    have h8 : (f.encoded.drop 40).length = 8 := by rw [hdrop]; rfl
    apply footer_decode_bad_magic
    · rw [footer_encoded_length_const, List.length_append, htake, List.length_set, h8]
    · rw [footer_magic_offset_const, List.drop_left' htake, hdrop]
      rw [hdrop] at hne
      exact set_magic_ne j c hj hc hne

/-- C2 witness: 48 bytes of value 1 give the bad-magic corruption error. -/
theorem C2_bad_magic_error_witness :
    Footer.decode_from (List.replicate 48 1) =
      some (.error ⟨.Corruption, some "not an sstable (bad magic number)"⟩) :=
  C2_bad_magic_error.1 (List.replicate 48 1) (by decide) (by decide)

/-- C3: for every footer (u64 fields), the encoding is exactly 48 bytes,
laid out as the varint encodings of the meta-index handle and the index
handle, then zero padding, then the 8-byte magic number at bytes 40..48. -/
theorem C3_footer_encoding_layout (f : Footer)
    (h1 : f.meta_index_handle.offset < 2 ^ 64) (h2 : f.meta_index_handle.size < 2 ^ 64)
    (h3 : f.index_handle.offset < 2 ^ 64) (h4 : f.index_handle.size < 2 ^ 64) :
    f.encoded.length = 48 ∧
    f.encoded = (f.meta_index_handle.encoded ++ f.index_handle.encoded) ++
      (List.replicate (40 - (f.meta_index_handle.encoded ++ f.index_handle.encoded).length) 0 ++
        [87, 251, 128, 139, 36, 117, 71, 219]) ∧
    f.encoded.drop 40 = [87, 251, 128, 139, 36, 117, 71, 219] := by
  have he : f.meta_index_handle.encoded ++ f.index_handle.encoded = handleBytes f := by
    simp [BlockHandle.encoded, BlockHandle.encoded_to, handleBytes]
  refine ⟨footer_encoded_length f, ?_, footer_encoded_drop40 f⟩
  rw [he, footer_encoded_eq f (handleBytes_length_le f h1 h2 h3 h4)]

/-- C3 witness: layout of the sample footer's encoding. -/
theorem C3_footer_encoding_layout_witness :
    sampleFooter.encoded.length = 48 ∧
    sampleFooter.encoded =
      (sampleFooter.meta_index_handle.encoded ++ sampleFooter.index_handle.encoded) ++
      (List.replicate
          (40 - (sampleFooter.meta_index_handle.encoded ++
            sampleFooter.index_handle.encoded).length) 0 ++
        [87, 251, 128, 139, 36, 117, 71, 219]) ∧
    sampleFooter.encoded.drop 40 = [87, 251, 128, 139, 36, 117, 71, 219] :=
  C3_footer_encoding_layout sampleFooter (by decide) (by decide) (by decide) (by decide)

/-- C4 counterexample: the claim places the magic at byte offset
`2 * MAX_VARINT_LEN_U64` (= 20): but the sample footer's encoding is not
`2 * MAX_VARINT_LEN_U64 + 8` bytes long, and its bytes starting at offset
20 are not the magic bytes (they are zero padding). -/
theorem C4_counterexample :
    sampleFooter.encoded.length ≠ 2 * MAX_VARINT_LEN_U64 + 8 ∧
    ¬ ((sampleFooter.encoded.drop (2 * MAX_VARINT_LEN_U64)).take 8 =
      [87, 251, 128, 139, 36, 117, 71, 219]) := by decide

/-- C4 (amended): the varint-encoded handles are zero-padded to a total
length of `2 * MAX_BLOCK_HANDLE_ENCODE_LENGTH` (= 4 · MAX_VARINT_LEN_U64
= 40) bytes before the magic is appended, so the magic begins at byte
offset `2 * MAX_BLOCK_HANDLE_ENCODE_LENGTH` of the encoding. -/
theorem C4_padding_layout (f : Footer)
    (h1 : f.meta_index_handle.offset < 2 ^ 64) (h2 : f.meta_index_handle.size < 2 ^ 64)
    (h3 : f.index_handle.offset < 2 ^ 64) (h4 : f.index_handle.size < 2 ^ 64) :
    (handleBytes f).length ≤ 2 * MAX_BLOCK_HANDLE_ENCODE_LENGTH ∧
    f.encoded.take (2 * MAX_BLOCK_HANDLE_ENCODE_LENGTH) =
      handleBytes f ++
        List.replicate (2 * MAX_BLOCK_HANDLE_ENCODE_LENGTH - (handleBytes f).length) 0 ∧
    f.encoded.drop (2 * MAX_BLOCK_HANDLE_ENCODE_LENGTH) =
      [87, 251, 128, 139, 36, 117, 71, 219] := by
  have hhb := handleBytes_length_le f h1 h2 h3 h4
  have h40 : 2 * MAX_BLOCK_HANDLE_ENCODE_LENGTH = 40 := by
    norm_num [MAX_BLOCK_HANDLE_ENCODE_LENGTH, MAX_VARINT_LEN_U64]
  rw [h40]
  refine ⟨hhb, ?_, footer_encoded_drop40 f⟩
  rw [footer_encoded_eq f hhb, ← List.append_assoc]
  exact List.take_left' (by simp [List.length_replicate]; omega)

/-- C4 witness: padding layout of the sample footer's encoding. -/
theorem C4_padding_layout_witness :
    (handleBytes sampleFooter).length ≤ 2 * MAX_BLOCK_HANDLE_ENCODE_LENGTH ∧
    sampleFooter.encoded.take (2 * MAX_BLOCK_HANDLE_ENCODE_LENGTH) =
      handleBytes sampleFooter ++
        List.replicate
          (2 * MAX_BLOCK_HANDLE_ENCODE_LENGTH - (handleBytes sampleFooter).length) 0 ∧
    sampleFooter.encoded.drop (2 * MAX_BLOCK_HANDLE_ENCODE_LENGTH) =
      [87, 251, 128, 139, 36, 117, 71, 219] :=
  C4_padding_layout sampleFooter (by decide) (by decide) (by decide) (by decide)

/-- C5: for every block handle (u64 offset and size) and any byte suffix,
`BlockHandle::decode_from(h.encoded() ++ rest)` returns the same handle and
consumes exactly `h.encoded().length` bytes. -/
theorem C5_blockhandle_roundtrip (h : BlockHandle) (rest : List Nat)
    (ho : h.offset < 2 ^ 64) (hs : h.size < 2 ^ 64) :
    BlockHandle.decode_from (h.encoded ++ rest) = .ok (h, h.encoded.length) := by
  have hmo := putVarint_length_le_ten _ ho
  have hms := putVarint_length_le_ten _ hs
  have he : h.encoded = putVarint h.offset ++ putVarint h.size := by
    simp [BlockHandle.encoded, BlockHandle.encoded_to]
  rw [he, List.append_assoc, blockHandle_decode_append _ _ _ hmo hms]
  simp only [Except.ok.injEq, Prod.mk.injEq, List.length_append]
  exact ⟨rfl, by omega⟩

/-- C5 witness: a concrete handle round-trips with a junk suffix. -/
theorem C5_blockhandle_roundtrip_witness :
    BlockHandle.decode_from ((BlockHandle.new 301 17).encoded ++ [0, 1, 2]) =
      .ok (BlockHandle.new 301 17, (BlockHandle.new 301 17).encoded.length) :=
  C5_blockhandle_roundtrip (BlockHandle.new 301 17) [0, 1, 2] (by decide) (by decide)

/-- C6: `BlockHandle::decode_from` returns
`Corruption("bad block handle")` exactly when reading the first varint
fails or reading the second varint from the remainder fails; and
`Footer::decode_from` returns the same error when, after a valid magic
check, either of its two handle decodes fails. -/
theorem C6_bad_handle_errors :
    (∀ src : List Nat,
        BlockHandle.decode_from src = .error ⟨.Corruption, some "bad block handle"⟩ ↔
          varintRead src = none ∨
            ∃ v n, varintRead src = some (v, n) ∧ varintRead (src.drop n) = none) ∧
    (∀ src : List Nat, 48 ≤ src.length →
        decode_fixed_64 (src.drop 40) = TABLE_MAGIC_NUMBER →
        (BlockHandle.decode_from src = .error ⟨.Corruption, some "bad block handle"⟩ ∨
          ∃ h n, BlockHandle.decode_from src = .ok (h, n) ∧
            BlockHandle.decode_from (src.drop n) =
              .error ⟨.Corruption, some "bad block handle"⟩) →
        Footer.decode_from src = some (.error ⟨.Corruption, some "bad block handle"⟩)) := by
  constructor
  · exact blockHandle_decode_error_iff
  · intro src hl hm hfail
    exact footer_decode_handle_fail src (by rw [footer_encoded_length_const]; exact hl)
      (by rw [footer_magic_offset_const]; exact hm) hfail

/-- C6 witness: 40 continuation bytes followed by a valid magic make the
first handle's varint overflow, so the footer decode reports
`Corruption("bad block handle")`. -/
theorem C6_bad_handle_errors_witness :
    Footer.decode_from (List.replicate 40 255 ++ [87, 251, 128, 139, 36, 117, 71, 219]) =
      some (.error ⟨.Corruption, some "bad block handle"⟩) :=
  C6_bad_handle_errors.2 (List.replicate 40 255 ++ [87, 251, 128, 139, 36, 117, 71, 219])
    (by decide) (by decide) (Or.inl (by decide))

/-- C7: the magic number written by `Footer::encoded` and required by
`Footer::decode_from` is exactly `0xdb4775248b80fb57`, stored little-endian
in the final 8 bytes of the 48-byte encoding. -/
theorem C7_magic_number (f : Footer) :
    TABLE_MAGIC_NUMBER = 0xdb4775248b80fb57 ∧
    f.encoded.length = 48 ∧
    f.encoded.drop 40 = [87, 251, 128, 139, 36, 117, 71, 219] ∧
    decode_fixed_64 [87, 251, 128, 139, 36, 117, 71, 219] = TABLE_MAGIC_NUMBER ∧
    (∀ (src : List Nat) (r : Footer × Nat), Footer.decode_from src = some (.ok r) →
        decode_fixed_64 (src.drop (FOOTER_ENCODED_LENGTH - 8)) = TABLE_MAGIC_NUMBER) :=
  ⟨rfl, footer_encoded_length f, footer_encoded_drop40 f, decode_fixed_64_magic,
    footer_decode_ok_magic⟩

/-- C7 witness: the sample footer's encoding decodes, so its final bytes
decode to the magic number. -/
theorem C7_magic_number_witness :
    decode_fixed_64 (sampleFooter.encoded.drop (FOOTER_ENCODED_LENGTH - 8)) =
      TABLE_MAGIC_NUMBER :=
  (C7_magic_number sampleFooter).2.2.2.2 sampleFooter.encoded (sampleFooter, 7) (by decide)

/-- C8: `Footer::decode_from` needs at least 48 input bytes: with 48 or
more it returns a result (no panic); with fewer it panics (modelled as
`none`). -/
theorem C8_length_requirement (src : List Nat) :
    (48 ≤ src.length → (Footer.decode_from src).isSome) ∧
    (src.length < 48 → Footer.decode_from src = none) := by
  constructor
  · intro hl
    rw [Footer.decode_from, if_pos (by rw [footer_encoded_length_const]; exact hl)]
    by_cases hm : decode_fixed_64 (src.drop (FOOTER_ENCODED_LENGTH - 8)) ≠ TABLE_MAGIC_NUMBER
    · rw [if_pos hm]
      rfl
    · rw [if_neg hm]
      rcases hb : BlockHandle.decode_from src with e | ⟨h1, k⟩
      · rfl
      · simp only []
        rcases hb2 : BlockHandle.decode_from (src.drop k) with e2 | ⟨h2, m⟩
        · rfl
        · rfl
  · intro hl
    rw [Footer.decode_from, if_neg (by rw [footer_encoded_length_const]; omega)]

/-- C8 witness: 48 zero bytes produce a result; 47 zero bytes panic. -/
theorem C8_length_requirement_witness :
    (Footer.decode_from (List.replicate 48 0)).isSome ∧
    Footer.decode_from (List.replicate 47 0) = none :=
  ⟨(C8_length_requirement (List.replicate 48 0)).1 (by decide),
    (C8_length_requirement (List.replicate 47 0)).2 (by decide)⟩

/-- C9 counterexample: the decoded length for handles `(300,100)` and
`(401,1000)` is 7 (varint lengths 2+1+2+2), not 8 as the claim's example
states. -/
theorem C9_counterexample :
    Footer.decode_from sampleFooter.encoded = some (.ok (sampleFooter, 7)) ∧
    (7 : Nat) ≠ 8 := by decide

/-- C9 (amended): the length returned by a successful
`Footer::decode_from` is the sum of the varint-encoded lengths of the two
block handles only — it excludes the padding and the magic — so it is at
most 40 and strictly less than 48 (e.g. 7 for handles `(300,100)` and
`(401,1000)`). -/
theorem C9_decoded_length :
    (∀ (src : List Nat) (f : Footer) (n : Nat),
        Footer.decode_from src = some (.ok (f, n)) → n ≤ 40 ∧ n < 48) ∧
    (∀ f : Footer, f.meta_index_handle.offset < 2 ^ 64 → f.meta_index_handle.size < 2 ^ 64 →
        f.index_handle.offset < 2 ^ 64 → f.index_handle.size < 2 ^ 64 →
        Footer.decode_from f.encoded = some (.ok (f,
          f.meta_index_handle.encoded.length + f.index_handle.encoded.length))) := by
  constructor
  · intro src f n h
    have := footer_decode_consumed src f n h
    exact ⟨this, by omega⟩
  · intro f h1 h2 h3 h4
    rw [footer_decode_encode f h1 h2 h3 h4]
    simp only [Option.some.injEq, Except.ok.injEq, Prod.mk.injEq]
    refine ⟨trivial, ?_⟩
    simp only [handleBytes, BlockHandle.encoded, BlockHandle.encoded_to, List.nil_append,
      List.length_append]
    omega

/-- C9 witness: the sample footer's decode length is the sum of its
handles' varint-encoded lengths. -/
theorem C9_decoded_length_witness :
    Footer.decode_from sampleFooter.encoded = some (.ok (sampleFooter,
      sampleFooter.meta_index_handle.encoded.length +
        sampleFooter.index_handle.encoded.length)) :=
  C9_decoded_length.2 sampleFooter (by decide) (by decide) (by decide) (by decide)

/-- C10: the magic number is validated before any handle is decoded: an
invalid magic yields the bad-magic corruption error regardless of the
handle bytes, and a `Corruption("bad block handle")` result implies the
input's bytes 40..48 decode to the valid magic number. -/
theorem C10_magic_checked_first :
    (∀ src : List Nat, 48 ≤ src.length →
        decode_fixed_64 (src.drop 40) ≠ TABLE_MAGIC_NUMBER →
        Footer.decode_from src =
          some (.error ⟨.Corruption, some "not an sstable (bad magic number)"⟩)) ∧
    (∀ src : List Nat,
        Footer.decode_from src = some (.error ⟨.Corruption, some "bad block handle"⟩) →
        decode_fixed_64 (src.drop 40) = TABLE_MAGIC_NUMBER) := by
  constructor
  · intro src hl hm
    exact footer_decode_bad_magic src (by rw [footer_encoded_length_const]; exact hl)
      (by rw [footer_magic_offset_const]; exact hm)
  · intro src h
    have := footer_decode_bad_handle_magic src h
    rwa [footer_magic_offset_const] at this

/-- C10 witness: 48 zero bytes (invalid magic, arbitrary handle bytes)
yield the bad-magic corruption error. -/
theorem C10_magic_checked_first_witness :
    Footer.decode_from (List.replicate 48 0) =
      some (.error ⟨.Corruption, some "not an sstable (bad magic number)"⟩) :=
  C10_magic_checked_first.1 (List.replicate 48 0) (by decide) (by decide)

end Wickdb
